import Mathlib

/-!
# Verification of the bug-fixer agent core

A shallow embedding, in Lean 4, of the core components of the bug-fixer
agent repository:

* `memory.py` — `approx_tokens`, `Turn`, `BugRecord`, `ContextStore` with
  its budget-triggered compaction (`add_turn`, `total_tokens`,
  `maybe_compress`, `render_for_agent`);
* `tools.py` — `Tools._safe_path`, `Tools.bash` behind the permission
  gate, `read_file`, `write_file`, `edit_file` over an explicit
  filesystem map;
* `web_app/backend/server.py` — `WebPermissionManager.request` and the
  decision-recording part of the `/permission/respond` handler;
* `agent.py` — `BugFixerAgent._implement_fix_and_tests` ledger updates.

Python strings are modelled as Lean `String` (both index by Unicode code
points).  The Python string primitives used by the source
(`str.strip()`, `str.replace`, slicing, `in`, `"sep".join`) are
re-implemented below by structural recursion over the character list, so
that every definition evaluates inside the kernel; `str.strip()` strips
`Char.isWhitespace` characters (space, tab, CR, LF — the whitespace that
occurs in this program).  `int(n * 0.4)` is modelled as exact natural
division `2 * n / 5`: for every list length `n` reachable in practice
(`n < 2^52`) the IEEE-754 double product `n * 0.4` truncates to exactly
`⌊2n/5⌋`, because the literal `0.4` rounds to a double strictly greater
than `2/5` and the product rounds to a value in `[⌊2n/5⌋, ⌊2n/5⌋ + 1)`.
-/

/-! ## Python string primitives -/

/-- Python `str.strip()`: whitespace removed at both ends. -/
def pyStrip (s : String) : String :=
  ⟨((s.data.dropWhile Char.isWhitespace).reverse.dropWhile Char.isWhitespace).reverse⟩

/-- Python slicing `s[:n]`. -/
def pyTake (s : String) (n : Nat) : String := ⟨s.data.take n⟩

/-- Python `"sep".join(xs)`. -/
def pyJoinSep (sep : String) : List String → String
  | [] => ""
  | [x] => x
  | x :: y :: rest => x ++ sep ++ pyJoinSep sep (y :: rest)

/-- Python `"\n".join(xs)`. -/
def pyJoinLines (xs : List String) : String := pyJoinSep "\n" xs

/-- Python `needle in hay` (substring containment). -/
def listContainsSub (needle : List Char) : List Char → Bool
  | [] => needle.isEmpty
  | c :: rest => needle.isPrefixOf (c :: rest) || listContainsSub needle rest

/-- Python `needle in hay` on strings. -/
def pyIn (needle hay : String) : Bool := listContainsSub needle.data hay.data

/-- Replace every (leftmost, non-overlapping) occurrence of the non-empty
pattern `pat` by `rep`; the fuel starts at the length of the input, which
suffices because every step consumes at least one character. -/
def listReplaceGo (pat rep : List Char) : Nat → List Char → List Char
  | 0, l => l
  | fuel + 1, l =>
    match l with
    | [] => []
    | c :: rest =>
      if pat.isPrefixOf (c :: rest) then
        rep ++ listReplaceGo pat rep fuel ((c :: rest).drop pat.length)
      else
        c :: listReplaceGo pat rep fuel rest

/-- Python `s.replace(pat, rep)` (for the non-empty patterns the source
uses; an empty pattern leaves the string unchanged). -/
def pyReplace (s pat rep : String) : String :=
  match pat.data with
  | [] => s
  | p :: ps => ⟨listReplaceGo (p :: ps) rep.data s.data.length s.data⟩

/-- Python `repr` of a string, as used in the f-string `{x!r}` slots of
`render_for_agent` (quoting only; none of the strings there need escape
sequences). -/
def pyReprStr (s : String) : String := "\x27" ++ s ++ "\x27"

/-- Python `str(list_of_strings)`: `['a', 'b']`. -/
def pyListStr (l : List String) : String :=
  "[" ++ pyJoinSep ", " (l.map pyReprStr) ++ "]"

/-- `a` is a prefix of `b`, on strings. -/
def pyIsPrefix (a b : String) : Bool := a.data.isPrefixOf b.data

/-! ## `memory.py` -/

/-- `memory.approx_tokens`: `max(1, len(text) // 4)`. -/
def approx_tokens (text : String) : Nat := max 1 (text.length / 4)

/-- `memory.Turn`. -/
structure Turn where
  role : String
  content : String
deriving DecidableEq

/-- `memory.BugRecord`. -/
structure BugRecord where
  bug_id : String
  user_report : String
  expected_behavior : String := ""
  root_cause : String := ""
  proposed_fix : String := ""
  files_changed : List String := []
  tests_added : List String := []
  test_command : String := ""
  test_result_summary : String := ""
deriving DecidableEq

/-- `memory.ContextStore` state (`_bug_counter` is spelled
`bug_counter`). -/
structure ContextStore where
  token_limit : Nat := 8000
  turns : List Turn := []
  summary : String := ""
  bugs : List BugRecord := []
  bug_counter : Nat := 0
deriving DecidableEq

/-- The `f"{t.role}: {t.content}"` rendering of one turn. -/
def turnLine (t : Turn) : String := t.role ++ ": " ++ t.content

/-- `"\n".join(f"{t.role}: {t.content}" for t in turns)`. -/
def turnsText (ts : List Turn) : String := pyJoinLines (ts.map turnLine)

/-- `ContextStore.total_tokens`. -/
def total_tokens (st : ContextStore) : Nat :=
  approx_tokens st.summary + approx_tokens (turnsText st.turns)

/-- The compacted one-line rendering of an old turn inside
`_maybe_compress`: content stripped, newlines flattened to spaces,
truncated to 180 characters with the marker the source file carries
(the literal three characters `â€¦`), prefixed by `- {role}: `. -/
def compactLine (t : Turn) : String :=
  let line := pyReplace (pyStrip t.content) "\n" " "
  let line := if line.length > 180 then pyTake line 180 ++ "â€¦" else line
  "- " ++ t.role ++ ": " ++ line

/-- The `addition` string built by one compaction pass over the removed
turns: `"Compressed history:\n" + "\n".join(lines) + "\n"`. -/
def blockText (old : List Turn) : String :=
  "Compressed history:\n" ++ pyJoinLines (old.map compactLine) ++ "\n"

/-- `max(1, int(len(turns) * 0.4))` (see the header note on the float
product). -/
def cutCount (n : Nat) : Nat := max 1 (2 * n / 5)

/-- The unconditional body of `ContextStore._maybe_compress` (the single
compaction pass). -/
def compressOnce (st : ContextStore) : ContextStore :=
  let cut := cutCount st.turns.length
  let old := st.turns.take cut
  { st with
    turns := st.turns.drop cut
    summary := pyStrip (st.summary ++ "\n" ++ blockText old) }

/-- `ContextStore._maybe_compress`. -/
def maybeCompress (st : ContextStore) : ContextStore :=
  if total_tokens st ≤ st.token_limit then st else compressOnce st

/-- Appending a `Turn` without the compaction check (the first line of
`add_turn`). -/
def appendTurn (st : ContextStore) (role content : String) : ContextStore :=
  { st with turns := st.turns ++ [⟨role, content⟩] }

/-- `ContextStore.add_turn`. -/
def add_turn (st : ContextStore) (role content : String) : ContextStore :=
  maybeCompress (appendTurn st role content)

/-- The bug-tracker projection used by `render_for_agent`. -/
def bugLine (b : BugRecord) : String :=
  b.bug_id ++ ": report=" ++ pyReprStr b.user_report
    ++ " expected=" ++ pyReprStr b.expected_behavior
    ++ " root_cause=" ++ pyReprStr b.root_cause
    ++ " proposed_fix=" ++ pyReprStr b.proposed_fix
    ++ " files_changed=" ++ pyListStr b.files_changed
    ++ " tests_added=" ++ pyListStr b.tests_added
    ++ " test_result=" ++ pyReprStr b.test_result_summary

/-- `ContextStore.render_for_agent`. -/
def render_for_agent (st : ContextStore) : String :=
  let bug_state := st.bugs.map bugLine
  "=== SUMMARY (compressed) ===\n" ++ st.summary ++ "\n\n"
    ++ "=== BUG TRACKER ===\n"
    ++ (if bug_state.isEmpty then "(none)" else pyJoinLines bug_state) ++ "\n\n"
    ++ "=== RECENT TURNS ===\n" ++ turnsText st.turns ++ "\n"

/-- Folding a list of `(role, content)` messages through `add_turn`. -/
def runAdds (st : ContextStore) (msgs : List (String × String)) : ContextStore :=
  msgs.foldl (fun s m => add_turn s m.1 m.2) st

/-- The summary string produced by a sequence of compaction passes, one
block per pass, starting from the empty summary: each pass performs
`summary = (summary + "\n" + addition).strip()`. -/
def summaryOfBlocks (blocks : List (List Turn)) : String :=
  blocks.foldl (fun s b => pyStrip (s ++ "\n" ++ blockText b)) ""

example : approx_tokens "" = 1 := by decide
example : cutCount 3 = 1 := by decide
example : cutCount 5 = 2 := by decide
example :
    (runAdds { token_limit := 1 } [("user", "a\nb")]).summary
      = "Compressed history:\n- user: a b" := by decide

/-! ## `tools.py` -/

/-- Split a character list on `/` (the pieces of `os.path` paths). -/
def splitOnSlash : List Char → List (List Char)
  | [] => [[]]
  | c :: rest =>
    match splitOnSlash rest with
    | [] => [[]]
    | g :: gs => if c = '/' then [] :: g :: gs else (c :: g) :: gs

/-- The component normalisation performed by `os.path.normpath` on an
absolute POSIX path: empty and `.` components vanish, `..` pops (and is
dropped at the root). -/
def normComponents : List String → List String → List String
  | [], acc => acc.reverse
  | p :: rest, acc =>
    if p = "" ∨ p = "." then normComponents rest acc
    else if p = ".." then normComponents rest acc.tail
    else normComponents rest (p :: acc)

/-- `os.path.abspath` on an already-absolute POSIX path (the only case
`_safe_path` produces, since the root is absolute).  The POSIX
double-leading-slash quirk of `normpath` is not modelled. -/
def pyNormpathAbs (p : String) : String :=
  "/" ++ pyJoinSep "/" (normComponents ((splitOnSlash p.data).map fun l => (⟨l⟩ : String)) [])

/-- `os.path.join(root, p)` for POSIX paths. -/
def pyJoin (root p : String) : String :=
  if pyIsPrefix "/" p then p
  else if root.data.getLast? = some '/' then root ++ p
  else root ++ "/" ++ p

/-- `Tools._safe_path`: normalise `root/file_path` and require
string-prefix containment in the root (`ToolError` is modelled as
`Except.error` carrying the message). -/
def safePath (root : String) (file_path : String) : Except String String :=
  let abs_path := pyNormpathAbs (pyJoin root file_path)
  if !(pyIsPrefix (root ++ "/") abs_path) && abs_path ≠ root then
    .error ("Unsafe path (outside root): " ++ file_path)
  else
    .ok abs_path

/-- The filesystem the tools act on: a map from absolute path to file
content (most recent binding first). -/
def FS : Type := List (String × String)

/-- Content of the file at (absolute) path `p`, if present. -/
def fsLookup (fs : FS) (p : String) : Option String :=
  ((List.find? (fun kv => kv.1 = p) fs)).map (fun kv => kv.2)

/-- `Tools.read_file`: safe-path check, then existence check, then the
content.  I/O faults other than absence are not modelled. -/
def read_file (fs : FS) (root p : String) : Bool × String :=
  match safePath root p with
  | .error e => (false, "read_file error: " ++ e)
  | .ok abs_path =>
    match fsLookup fs abs_path with
    | none => (false, "File not found: " ++ p)
    | some content => (true, content)

/-- `Tools.write_file`: safe-path check, then store the full content
(`os.makedirs` has no analogue in the flat map). -/
def write_file (fs : FS) (root p content : String) : (Bool × String) × FS :=
  match safePath root p with
  | .error e => ((false, "write_file error: " ++ e), fs)
  | .ok abs_path =>
    ((true, "Wrote " ++ p ++ " (" ++ toString content.length ++ " bytes)."),
      (abs_path, content) :: fs)

/-- `Tools.edit_file`: read (abort on failure), then full-content
replacement via `write_file`; the unified diff the source prints is
display-only and not modelled. -/
def edit_file (fs : FS) (root p changes : String) : (Bool × String) × FS :=
  match read_file fs root p with
  | (false, msg) => ((false, msg), fs)
  | (true, _old) => write_file fs root p changes

/-- `tools.BashResult`. -/
structure BashResult where
  ok : Bool
  returncode : Int
  stdout : String
  stderr : String
  command : String
deriving DecidableEq

/-- What the shell/process provider does with a command and a timeout
(`subprocess.run(..., timeout=timeout_s)`): either the process finishes
with an exit code and captured output, or the timeout expires. -/
inductive ShellOutcome where
  | completed (returncode : Int) (stdout stderr : String)
  | timedOut
deriving DecidableEq

/-- The `subprocess.TimeoutExpired` exception raised by the provider
when the timeout expires; `Tools.bash` does not catch it. -/
structure TimeoutExpired where
  command : String
deriving DecidableEq

/-- `Tools.bash`, generic over the permission manager (`request`, state
`pm`) and the shell provider.  The third component of the result lists
the commands actually handed to the shell.  A timed-out run is the
uncaught `TimeoutExpired` exception, i.e. `Except.error`. -/
def Tools.bash {σ : Type} (request : σ → String → Bool × σ) (shell : String → Nat → ShellOutcome)
    (pm : σ) (command : String) (timeout_s : Nat := 60) :
    Except TimeoutExpired BashResult × σ × List String :=
  let res := request pm command
  if !res.1 then
    (.ok { ok := false, returncode := 126, stdout := "",
           stderr := "User rejected bash command execution.", command := command },
      res.2, [])
  else
    match shell command timeout_s with
    | .completed rc out err =>
      (.ok { ok := rc = 0, returncode := rc, stdout := out, stderr := err, command := command },
        res.2, [command])
    | .timedOut => (.error { command := command }, res.2, [command])

/-! ## `web_app/backend/server.py` -/

/-- `server.PendingBash` (the `uuid.uuid4()` token is modelled as an
opaque natural number drawn from a fresh supply). -/
structure PendingBash where
  request_id : Nat
  command : String
deriving DecidableEq

/-- `server.WebPermissionManager` state, plus the fresh-id supply. -/
structure WebPermissionManager where
  pending : Option PendingBash := none
  last_decision : Option Bool := none
  fresh : Nat := 0
deriving DecidableEq

/-- `WebPermissionManager.request`: consume a recorded decision if one
exists; otherwise record (at most one) pending request and deny. -/
def WebPermissionManager.request (s : WebPermissionManager) (command : String) :
    Bool × WebPermissionManager :=
  match s.last_decision with
  | some decision => (decision, { s with last_decision := none, pending := none })
  | none =>
    match s.pending with
    | some _ => (false, s)
    | none => (false, { s with pending := some ⟨s.fresh, command⟩, fresh := s.fresh + 1 })

/-- The permission-state core of the `/permission/respond` handler
(`permission_respond`): when the id matches the pending request, record
the decision and report `true`; otherwise leave the state untouched and
report `false`, which the handler surfaces as the message
`No matching permission request found.`. -/
def resolvePending (s : WebPermissionManager) (request_id : Nat) (approved : Bool) :
    WebPermissionManager × Bool :=
  match s.pending with
  | none => (s, false)
  | some pb =>
    if pb.request_id = request_id then ({ s with last_decision := some approved }, true)
    else (s, false)

/-! ## `agent.py` — the fix-and-test-authoring step -/

/-- The hardcoded target file of `_implement_fix_and_tests`. -/
def calc_rel : String := "demo_repo/src/calculator.py"

/-- The hardcoded test file of `_implement_fix_and_tests`. -/
def test_rel : String := "demo_repo/tests/test_calculator.py"

/-- The `divide` body searched for by the fix. -/
def divideOld : String :=
  "def divide(a: float, b: float) -> float:\n    return a / b\n"

/-- The guarded `divide` body substituted by the fix. -/
def divideNew : String :=
  "def divide(a: float, b: float) -> float:\n    if b == 0:\n        raise ValueError(\"Cannot divide by zero\")\n    return a / b\n"

/-- The test block appended when `test_divide_by_zero` is absent. -/
def testBlock : String :=
  "import pytest\n" ++ "from src.calculator import divide\n\n\n"
    ++ "def test_divide_by_zero():\n"
    ++ "    with pytest.raises(ValueError, match=\"divide by zero\"):\n"
    ++ "        divide(10, 0)\n"

/-- The success message of `_implement_fix_and_tests`. -/
def implementedMsg (bug : BugRecord) : String :=
  "Implemented fix + tests.\n- Changed: " ++ pyJoinSep ", " bug.files_changed
    ++ "\n- Tests: " ++ pyJoinSep ", " bug.tests_added
    ++ "\nNext: I can run tests with:\n  pytest -q\nBut I must ask permission before executing any bash command.\nType \x27run-tests\x27 when you want me to execute it."

/-- `BugFixerAgent._implement_fix_and_tests`, acting on the bug record
with the active id (the `next(...)` lookup is identity plumbing) and the
tool filesystem; the returned string is the turn content the agent
appends/prints at the point the source returns. -/
def implement_fix_and_tests (fs : FS) (root : String) (bug : BugRecord) :
    FS × BugRecord × String :=
  match read_file fs root calc_rel with
  | (false, err) => (fs, bug, "Could not read " ++ calc_rel ++ ": " ++ err)
  | (true, calc_code) =>
    let fixed :=
      if pyIn "def divide" calc_code && !(pyIn "b == 0" calc_code) then
        pyReplace calc_code divideOld divideNew
      else calc_code
    match edit_file fs root calc_rel fixed with
    | ((false, msg), fs1) => (fs1, bug, "edit failed: " ++ msg)
    | ((true, _), fs1) =>
      let bug1 := { bug with files_changed := bug.files_changed ++ [calc_rel] }
      let rd := read_file fs1 root test_rel
      let current := if rd.1 then rd.2 else ""
      if !(pyIn "test_divide_by_zero" current) then
        let test_content := pyStrip (pyStrip current ++ "\n\n" ++ testBlock) ++ "\n"
        match write_file fs1 root test_rel test_content with
        | ((false, wmsg), fs2) => (fs2, bug1, "write test failed: " ++ wmsg)
        | ((true, _), fs2) =>
          let bug2 := { bug1 with tests_added := bug1.tests_added ++ [test_rel] }
          (fs2, bug2, implementedMsg bug2)
      else
        let bug2 := { bug1 with tests_added := bug1.tests_added ++ [test_rel] }
        (fs1, bug2, implementedMsg bug2)

deriving instance DecidableEq for Except

example : safePath "/repo" "../etc/passwd"
    = .error "Unsafe path (outside root): ../etc/passwd" := by decide
example : safePath "/repo" "demo_repo/src/calculator.py"
    = .ok "/repo/demo_repo/src/calculator.py" := by decide

/-! ## Helper lemmas -/

theorem approx_tokens_mono {a b : String} (h : a.length ≤ b.length) :
    approx_tokens a ≤ approx_tokens b :=
  max_le_max le_rfl (Nat.div_le_div_right h)

theorem pyJoinSep_append_singleton (sep : String) (l : List String) (s : String) :
    pyJoinSep sep (l ++ [s])
      = if l.isEmpty then s else pyJoinSep sep l ++ sep ++ s := by
  induction l with
  | nil => rfl
  | cons x xs ih =>
    cases xs with
    | nil => rfl
    | cons y rest =>
      simp only [List.cons_append, pyJoinSep, List.append_eq]
      rw [← List.cons_append, ih]
      simp [String.append_assoc]

theorem length_pyJoinSep_le (sep : String) (l : List String) (s : String) :
    (pyJoinSep sep l).length ≤ (pyJoinSep sep (l ++ [s])).length := by
  rw [pyJoinSep_append_singleton]
  cases l with
  | nil => simp [pyJoinSep]
  | cons x xs =>
    simp only [List.isEmpty_cons, if_neg Bool.false_ne_true, String.length_append]
    omega

theorem add_turn_bugs_eq (st : ContextStore) (role content : String) :
    (add_turn st role content).bugs = st.bugs := by
  unfold add_turn maybeCompress appendTurn compressOnce
  dsimp only
  split <;> rfl

theorem add_turn_counter_eq (st : ContextStore) (role content : String) :
    (add_turn st role content).bug_counter = st.bug_counter := by
  unfold add_turn maybeCompress appendTurn compressOnce
  dsimp only
  split <;> rfl

theorem add_turn_limit_eq (st : ContextStore) (role content : String) :
    (add_turn st role content).token_limit = st.token_limit := by
  unfold add_turn maybeCompress appendTurn compressOnce
  dsimp only
  split <;> rfl

/-! ## Claim theorems -/

/-- C10: `add_turn` — including any compaction it triggers — leaves the
bug records, the bug counter and the token limit of the `ContextStore`
unchanged; only `turns` and `summary` may move. -/
theorem add_turn_frame (st : ContextStore) (role content : String) :
    (add_turn st role content).bugs = st.bugs
    ∧ (add_turn st role content).bug_counter = st.bug_counter
    ∧ (add_turn st role content).token_limit = st.token_limit :=
  ⟨add_turn_bugs_eq st role content, add_turn_counter_eq st role content,
    add_turn_limit_eq st role content⟩

/-- C8: the size heuristic is monotonic — appending a turn with
non-empty content never decreases `total_tokens`, measured before any
compaction runs. -/
theorem size_monotone (st : ContextStore) (role content : String)
    (_h : content ≠ "") :
    total_tokens st ≤ total_tokens (appendTurn st role content) := by
  unfold total_tokens appendTurn turnsText
  dsimp only
  refine Nat.add_le_add le_rfl (approx_tokens_mono ?_)
  rw [List.map_append]
  exact length_pyJoinSep_le "\n" (st.turns.map turnLine) (turnLine ⟨role, content⟩)

/-- C8 witness: a concrete store and a concrete non-empty appended
content. -/
theorem size_monotone_witness :
    total_tokens { token_limit := 8000, turns := [⟨"user", "hi"⟩] }
      ≤ total_tokens (appendTurn { token_limit := 8000, turns := [⟨"user", "hi"⟩] } "agent" "hello") :=
  size_monotone { token_limit := 8000, turns := [⟨"user", "hi"⟩] } "agent" "hello" (by decide)

/-- C1: `Tools.bash` consults the permission manager first; a denied
request yields the fixed rejection result (exit code 126, empty stdout,
explanatory stderr) with the shell never invoked, and an approved,
completing execution yields a result whose `ok` flag holds exactly when
the exit code is zero, with the shell invoked once. -/
theorem bash_permission_gate {σ : Type} (request : σ → String → Bool × σ)
    (shell : String → Nat → ShellOutcome) (pm : σ) (command : String) (timeout_s : Nat) :
    ((request pm command).1 = false →
      Tools.bash request shell pm command timeout_s
        = (.ok { ok := false, returncode := 126, stdout := "",
                 stderr := "User rejected bash command execution.", command := command },
           (request pm command).2, []))
    ∧ (∀ rc out err, (request pm command).1 = true →
        shell command timeout_s = .completed rc out err →
        ∃ res : BashResult,
          Tools.bash request shell pm command timeout_s = (.ok res, (request pm command).2, [command])
          ∧ (res.ok = true ↔ rc = 0) ∧ res.returncode = rc
          ∧ res.stdout = out ∧ res.stderr = err) := by
  constructor
  · intro h
    simp only [Tools.bash]
    rw [h]
    rfl
  · intro rc out err h hs
    refine ⟨{ ok := rc = 0, returncode := rc, stdout := out, stderr := err, command := command }, ?_, ?_, rfl, rfl, rfl⟩
    · simp only [Tools.bash]
      rw [h, hs]
      rfl
    · exact decide_eq_true_iff

/-- C1 witness: a concrete denied call (rejection result, shell trace
empty) and a concrete approved, completing call. -/
theorem bash_permission_gate_witness :
    (Tools.bash (fun (u : Unit) (_ : String) => (false, u)) (fun _ _ => .completed 0 "" "") () "ls" 60
      = (.ok { ok := false, returncode := 126, stdout := "",
               stderr := "User rejected bash command execution.", command := "ls" }, (), []))
    ∧ (∃ res : BashResult,
        Tools.bash (fun (u : Unit) (_ : String) => (true, u)) (fun _ _ => .completed 0 "out" "err") () "ls" 60
          = (.ok res, (), ["ls"])
        ∧ (res.ok = true ↔ (0 : Int) = 0) ∧ res.returncode = 0
        ∧ res.stdout = "out" ∧ res.stderr = "err") :=
  ⟨(bash_permission_gate (fun (u : Unit) (_ : String) => (false, u))
      (fun _ _ => .completed 0 "" "") () "ls" 60).1 rfl,
   (bash_permission_gate (fun (u : Unit) (_ : String) => (true, u))
      (fun _ _ => .completed 0 "out" "err") () "ls" 60).2 0 "out" "err" rfl rfl⟩

/-- C9: an approved command whose execution exceeds the timeout makes
`Tools.bash` raise the provider's `TimeoutExpired` exception
(`Except.error`), which nothing in `Tools.bash` or the agent loop
catches — no `BashResult` and no recoverable message is produced, so the
condition is process-terminating, contrary to the stated policy. -/
theorem bash_timeout_uncaught :
    Tools.bash (fun (u : Unit) (_ : String) => (true, u)) (fun _ _ => .timedOut) () "pytest -q" 60
      = (.error { command := "pytest -q" }, (), ["pytest -q"]) := rfl

/-- C4: in deferred (web) mode, with no recorded decision, two
consecutive `request` calls for the same command both return `false`,
leave the state of the second call identical to the first, and expose
one single pending record (no duplicate is created). -/
theorem request_idempotent_pending (s : WebPermissionManager) (command : String)
    (h : s.last_decision = none) :
    (s.request command).1 = false
    ∧ ((s.request command).2.request command).1 = false
    ∧ ((s.request command).2.request command).2 = (s.request command).2
    ∧ ∃ pb : PendingBash, (s.request command).2.pending = some pb
        ∧ ((s.request command).2.request command).2.pending = some pb := by
  cases hp : s.pending with
  | none =>
    refine ⟨?_, ?_, ?_, ⟨s.fresh, command⟩, ?_, ?_⟩ <;>
      simp [WebPermissionManager.request, h, hp]
  | some pb =>
    refine ⟨?_, ?_, ?_, pb, ?_, ?_⟩ <;>
      simp [WebPermissionManager.request, h, hp]

/-- C4 witness: a fresh web permission manager and the command the agent
actually issues. -/
theorem request_idempotent_pending_witness :
    (WebPermissionManager.request {} "pytest -q").1 = false
    ∧ ((WebPermissionManager.request {} "pytest -q").2.request "pytest -q").1 = false
    ∧ ((WebPermissionManager.request {} "pytest -q").2.request "pytest -q").2
        = (WebPermissionManager.request {} "pytest -q").2
    ∧ ∃ pb : PendingBash,
        (WebPermissionManager.request {} "pytest -q").2.pending = some pb
        ∧ ((WebPermissionManager.request {} "pytest -q").2.request "pytest -q").2.pending = some pb :=
  request_idempotent_pending {} "pytest -q" rfl

/-- C5: after `resolvePending` records a decision for the matching
pending request id, the next `request` call returns that decision
exactly once and clears both the decision and the pending record, and a
subsequent `request` call reverts to normal pending behaviour; a
`resolvePending` call whose id does not match — including when nothing
is pending — is a no-op reported as unmatched (`false`, surfaced by the
handler as `No matching permission request found.`). -/
theorem resolve_then_request_consumes (s : WebPermissionManager) (pb : PendingBash)
    (d : Bool) (c c2 : String) (h : s.pending = some pb) :
    (resolvePending s pb.request_id d).2 = true
    ∧ ((resolvePending s pb.request_id d).1.request c).1 = d
    ∧ ((resolvePending s pb.request_id d).1.request c).2.pending = none
    ∧ ((resolvePending s pb.request_id d).1.request c).2.last_decision = none
    ∧ ((((resolvePending s pb.request_id d).1.request c).2).request c2).1 = false
    ∧ (∃ pb2 : PendingBash,
        ((((resolvePending s pb.request_id d).1.request c).2).request c2).2.pending = some pb2
        ∧ pb2.command = c2)
    ∧ (∀ rid : Nat, rid ≠ pb.request_id → resolvePending s rid d = (s, false))
    ∧ (∀ (t : WebPermissionManager) (rid : Nat), t.pending = none →
        resolvePending t rid d = (t, false)) := by
  refine ⟨?_, ?_, ?_, ?_, ?_, ?_, ?_, ?_⟩
  · simp [resolvePending, h]
  · simp [resolvePending, h, WebPermissionManager.request]
  · simp [resolvePending, h, WebPermissionManager.request]
  · simp [resolvePending, h, WebPermissionManager.request]
  · simp [resolvePending, h, WebPermissionManager.request]
  · refine ⟨⟨((resolvePending s pb.request_id d).1.request c).2.fresh, c2⟩, ?_, rfl⟩
    simp [resolvePending, h, WebPermissionManager.request]
  · intro rid hrid
    have hrid2 : pb.request_id ≠ rid := fun hh => hrid hh.symm
    simp [resolvePending, h, hrid2]
  · intro t rid ht
    simp [resolvePending, ht]

/-- C5 witness: a concrete pending request, approved, then consumed by
the next `request`, with the following `request` pending again; plus a
concrete mismatched id rejected as a no-op. -/
theorem resolve_then_request_consumes_witness :
    (resolvePending { pending := some ⟨7, "pytest -q"⟩, fresh := 8 } 7 true).2 = true
    ∧ ((resolvePending { pending := some ⟨7, "pytest -q"⟩, fresh := 8 } 7 true).1.request "pytest -q").1 = true
    ∧ ((resolvePending { pending := some ⟨7, "pytest -q"⟩, fresh := 8 } 7 true).1.request "pytest -q").2.pending = none
    ∧ ((resolvePending { pending := some ⟨7, "pytest -q"⟩, fresh := 8 } 7 true).1.request "pytest -q").2.last_decision = none
    ∧ ((((resolvePending { pending := some ⟨7, "pytest -q"⟩, fresh := 8 } 7 true).1.request "pytest -q").2).request "ls").1 = false
    ∧ (∃ pb2 : PendingBash,
        ((((resolvePending { pending := some ⟨7, "pytest -q"⟩, fresh := 8 } 7 true).1.request "pytest -q").2).request "ls").2.pending = some pb2
        ∧ pb2.command = "ls")
    ∧ (∀ rid : Nat, rid ≠ (7 : Nat) → resolvePending { pending := some ⟨7, "pytest -q"⟩, fresh := 8 } rid true
        = ({ pending := some ⟨7, "pytest -q"⟩, fresh := 8 }, false))
    ∧ (∀ (t : WebPermissionManager) (rid : Nat), t.pending = none →
        resolvePending t rid true = (t, false)) :=
  resolve_then_request_consumes { pending := some ⟨7, "pytest -q"⟩, fresh := 8 }
    ⟨7, "pytest -q"⟩ true "pytest -q" "ls" rfl

/-- C6: a path whose normalised absolute form fails the string-prefix
containment check against the root is rejected by all three file tools
with the `UnsafePath` error, the filesystem is left untouched, and the
read result does not depend on the filesystem at all (no access). -/
theorem unsafe_path_no_access (fs fs2 : FS) (root p content changes : String)
    (h1 : pyIsPrefix (root ++ "/") (pyNormpathAbs (pyJoin root p)) = false)
    (h2 : pyNormpathAbs (pyJoin root p) ≠ root) :
    read_file fs root p = (false, "read_file error: Unsafe path (outside root): " ++ p)
    ∧ read_file fs root p = read_file fs2 root p
    ∧ write_file fs root p content
        = ((false, "write_file error: Unsafe path (outside root): " ++ p), fs)
    ∧ edit_file fs root p changes
        = ((false, "read_file error: Unsafe path (outside root): " ++ p), fs) := by
  have hsp : safePath root p = .error ("Unsafe path (outside root): " ++ p) := by
    simp [safePath, h1, h2]
  have hr : ∀ g : FS, read_file g root p
      = (false, "read_file error: Unsafe path (outside root): " ++ p) := by
    intro g
    simp only [read_file, hsp]
    rw [← String.append_assoc]
    rfl
  refine ⟨hr fs, by rw [hr fs, hr fs2], ?_, ?_⟩
  · simp only [write_file, hsp]
    rw [← String.append_assoc]
    rfl
  · simp [edit_file, hr fs]

/-- C6 witness: `../etc/passwd` escapes the root `/repo`; all three
tools reject it and two different filesystems give the same read
result. -/
theorem unsafe_path_no_access_witness :
    read_file [] "/repo" "../etc/passwd"
      = (false, "read_file error: Unsafe path (outside root): " ++ "../etc/passwd")
    ∧ read_file [] "/repo" "../etc/passwd"
        = read_file [("/etc/passwd", "root:x:0:0")] "/repo" "../etc/passwd"
    ∧ write_file [] "/repo" "../etc/passwd" "pwned"
        = ((false, "write_file error: Unsafe path (outside root): " ++ "../etc/passwd"), [])
    ∧ edit_file [] "/repo" "../etc/passwd" "pwned"
        = ((false, "read_file error: Unsafe path (outside root): " ++ "../etc/passwd"), []) :=
  unsafe_path_no_access [] [("/etc/passwd", "root:x:0:0")] "/repo" "../etc/passwd"
    "pwned" "pwned" (by decide) (by decide)

/-- A successful `read_file` implies the safe-path check passed. -/
theorem read_file_ok_safePath {fs : FS} {root p c : String}
    (h : read_file fs root p = (true, c)) : ∃ a : String, safePath root p = .ok a := by
  unfold read_file at h
  cases hsp : safePath root p with
  | error e => rw [hsp] at h; exact absurd h (by simp)
  | ok a => exact ⟨a, rfl⟩

/-- The demo filesystem after the fix already landed: the calculator
file carries the guarded `divide` and the test file carries
`test_divide_by_zero`. -/
def fsDemo : FS :=
  [("/repo/demo_repo/src/calculator.py", divideNew),
   ("/repo/demo_repo/tests/test_calculator.py", testBlock)]

/-- C7 counterexample: running `_implement_fix_and_tests` twice over an
already-fixed file and an already-present test leaves each touched path
TWICE in the ledgers — the step is not idempotent. -/
theorem fix_step_duplicates_counterexample :
    (implement_fix_and_tests
        (implement_fix_and_tests fsDemo "/repo"
          { bug_id := "BUG-001", user_report := "dividing by zero crashes" }).1
        "/repo"
        (implement_fix_and_tests fsDemo "/repo"
          { bug_id := "BUG-001", user_report := "dividing by zero crashes" }).2.1).2.1.files_changed
      = [calc_rel, calc_rel]
    ∧ (implement_fix_and_tests
        (implement_fix_and_tests fsDemo "/repo"
          { bug_id := "BUG-001", user_report := "dividing by zero crashes" }).1
        "/repo"
        (implement_fix_and_tests fsDemo "/repo"
          { bug_id := "BUG-001", user_report := "dividing by zero crashes" }).2.1).2.1.tests_added
      = [test_rel, test_rel]
    ∧ List.count calc_rel
        (implement_fix_and_tests
          (implement_fix_and_tests fsDemo "/repo"
            { bug_id := "BUG-001", user_report := "dividing by zero crashes" }).1
          "/repo"
          (implement_fix_and_tests fsDemo "/repo"
            { bug_id := "BUG-001", user_report := "dividing by zero crashes" }).2.1).2.1.files_changed
      ≠ 1 := by decide

/-- C7 amended: each invocation of the fix-and-test-authoring step whose
reads and writes succeed appends `calc_rel` to `files_changed` and
`test_rel` to `tests_added` unconditionally — exactly one new copy per
invocation, so re-invocation duplicates ledger entries instead of
leaving them unique. -/
theorem fix_step_appends (fs : FS) (root : String) (bug : BugRecord) (code : String)
    (hr : read_file fs root calc_rel = (true, code))
    (ht : ∃ a : String, safePath root test_rel = .ok a) :
    (implement_fix_and_tests fs root bug).2.1.files_changed
      = bug.files_changed ++ [calc_rel]
    ∧ (implement_fix_and_tests fs root bug).2.1.tests_added
      = bug.tests_added ++ [test_rel] := by
  obtain ⟨a, ha⟩ := read_file_ok_safePath hr
  obtain ⟨b, hb⟩ := ht
  have hwc : ∀ ct : String, write_file fs root calc_rel ct
      = ((true, "Wrote " ++ calc_rel ++ " (" ++ toString ct.length ++ " bytes)."),
          (a, ct) :: fs) := by
    intro ct
    simp [write_file, ha]
  have hec : ∀ ct : String, edit_file fs root calc_rel ct
      = ((true, "Wrote " ++ calc_rel ++ " (" ++ toString ct.length ++ " bytes)."),
          (a, ct) :: fs) := by
    intro ct
    simp [edit_file, hr, hwc]
  have hwt : ∀ (g : FS) (ct : String), write_file g root test_rel ct
      = ((true, "Wrote " ++ test_rel ++ " (" ++ toString ct.length ++ " bytes)."),
          (b, ct) :: g) := by
    intro g ct
    simp [write_file, hb]
  unfold implement_fix_and_tests
  rw [hr]
  simp only [hec, hwt]
  split <;> exact ⟨by split <;> split <;> rfl, by split <;> split <;> rfl⟩

/-- C7 witness: on the concrete already-fixed demo filesystem the step
appends one copy of each path to the fresh bug record's ledgers. -/
theorem fix_step_appends_witness :
    (implement_fix_and_tests fsDemo "/repo"
        { bug_id := "BUG-001", user_report := "dividing by zero crashes" }).2.1.files_changed
      = ([] : List String) ++ [calc_rel]
    ∧ (implement_fix_and_tests fsDemo "/repo"
        { bug_id := "BUG-001", user_report := "dividing by zero crashes" }).2.1.tests_added
      = ([] : List String) ++ [test_rel] :=
  fix_step_appends fsDemo "/repo"
    { bug_id := "BUG-001", user_report := "dividing by zero crashes" } divideNew
    (by decide) ⟨"/repo/demo_repo/tests/test_calculator.py", by decide⟩

/-- One compaction pass appended to a block history equals the source's
incremental summary update. -/
theorem summaryOfBlocks_concat (blocks : List (List Turn)) (b : List Turn) :
    summaryOfBlocks (blocks ++ [b])
      = pyStrip (summaryOfBlocks blocks ++ "\n" ++ blockText b) := by
  unfold summaryOfBlocks
  rw [List.foldl_append]
  rfl

/-- The compaction cut size is at least one. -/
theorem cutCount_pos (n : Nat) : 1 ≤ cutCount n := le_max_left 1 _

/-- Taking at least one element of a non-empty list is non-empty. -/
theorem take_cut_ne_nil {l : List Turn} (hl : l ≠ []) (k : Nat) (hk : 1 ≤ k) :
    l.take k ≠ [] := by
  intro h
  rcases List.take_eq_nil_iff.mp h with h1 | h2
  · omega
  · exact hl h2

/-- `runAdds` preserves the bug ledger. -/
theorem runAdds_bugs (msgs : List (String × String)) (st : ContextStore) :
    (runAdds st msgs).bugs = st.bugs := by
  induction msgs generalizing st with
  | nil => rfl
  | cons m rest ih =>
    show (runAdds (add_turn st m.1 m.2) rest).bugs = st.bugs
    rw [ih, add_turn_bugs_eq]

/-- The accounting invariant: however the store compacts, the full block
history plus the live turns is exactly the original turn sequence. -/
theorem runAdds_accounting_aux (msgs : List (String × String)) (st : ContextStore)
    (blocks : List (List Turn)) (hsum : st.summary = summaryOfBlocks blocks)
    (hne : ∀ b ∈ blocks, b ≠ []) :
    ∃ blocks2 : List (List Turn),
      (runAdds st msgs).summary = summaryOfBlocks blocks2
      ∧ blocks2.flatten ++ (runAdds st msgs).turns
          = blocks.flatten ++ st.turns ++ msgs.map (fun m => (⟨m.1, m.2⟩ : Turn))
      ∧ ∀ b ∈ blocks2, b ≠ [] := by
  induction msgs generalizing st blocks with
  | nil =>
    exact ⟨blocks, hsum, by simp [runAdds], hne⟩
  | cons m rest ih =>
    have hstep : runAdds st (m :: rest) = runAdds (add_turn st m.1 m.2) rest := rfl
    by_cases hc : total_tokens (appendTurn st m.1 m.2) ≤ (appendTurn st m.1 m.2).token_limit
    · have hadd : add_turn st m.1 m.2 = appendTurn st m.1 m.2 := by
        unfold add_turn maybeCompress
        rw [if_pos hc]
      obtain ⟨b2, h1, h2, h3⟩ := ih (appendTurn st m.1 m.2) blocks hsum hne
      refine ⟨b2, by rw [hstep, hadd]; exact h1, ?_, h3⟩
      rw [hstep, hadd, h2]
      simp [appendTurn, List.append_assoc]
    · have hadd : add_turn st m.1 m.2 = compressOnce (appendTurn st m.1 m.2) := by
        unfold add_turn maybeCompress
        rw [if_neg hc]
      have hturns1 : (compressOnce (appendTurn st m.1 m.2)).turns
          = (st.turns ++ [Turn.mk m.1 m.2]).drop (cutCount (st.turns ++ [Turn.mk m.1 m.2]).length) := rfl
      have hsum1 : (compressOnce (appendTurn st m.1 m.2)).summary
          = summaryOfBlocks (blocks
              ++ [(st.turns ++ [Turn.mk m.1 m.2]).take (cutCount (st.turns ++ [Turn.mk m.1 m.2]).length)]) := by
        rw [summaryOfBlocks_concat, ← hsum]
        rfl
      have hne1 : ∀ b ∈ blocks
          ++ [(st.turns ++ [Turn.mk m.1 m.2]).take (cutCount (st.turns ++ [Turn.mk m.1 m.2]).length)],
          b ≠ [] := by
        intro b hb
        rcases List.mem_append.mp hb with hb1 | hb1
        · exact hne b hb1
        · rw [List.mem_singleton] at hb1
          subst hb1
          exact take_cut_ne_nil (by simp) _ (cutCount_pos _)
      obtain ⟨b2, h1, h2, h3⟩ := ih (compressOnce (appendTurn st m.1 m.2)) _ hsum1 hne1
      refine ⟨b2, by rw [hstep, hadd]; exact h1, ?_, h3⟩
      rw [hstep, hadd, h2, hturns1, List.flatten_append]
      simp only [List.flatten_cons, List.flatten_nil, List.append_nil, List.map_cons,
        List.append_assoc]
      rw [← List.append_assoc ((st.turns ++ [Turn.mk m.1 m.2]).take (cutCount (st.turns ++ [Turn.mk m.1 m.2]).length)),
        List.take_append_drop]
      simp [List.append_assoc]

/-- C2 (amended): after any sequence of `add_turn` calls on a fresh
store, there is a partition of the appended turns into compaction blocks
(in order, each non-empty) followed by the live turns: the summary is
exactly the rendering of those blocks — one compacted line per turn,
role preserved, content stripped, newlines flattened to spaces and
truncated at 180 characters — and `render_for_agent` shows the summary
section before the remaining turns.  (The claim's stronger reading that
the rendered content is a literal prefix of the original fails; see the
counterexample.) -/
theorem turn_accounting (L : Nat) (msgs : List (String × String)) :
    ∃ blocks : List (List Turn),
      (runAdds { token_limit := L } msgs).summary = summaryOfBlocks blocks
      ∧ blocks.flatten ++ (runAdds { token_limit := L } msgs).turns
          = msgs.map (fun m => (⟨m.1, m.2⟩ : Turn))
      ∧ (∀ b ∈ blocks, b ≠ [])
      ∧ render_for_agent (runAdds { token_limit := L } msgs)
          = "=== SUMMARY (compressed) ===\n" ++ summaryOfBlocks blocks ++ "\n\n"
            ++ "=== BUG TRACKER ===\n" ++ "(none)" ++ "\n\n"
            ++ "=== RECENT TURNS ===\n"
            ++ turnsText (runAdds { token_limit := L } msgs).turns ++ "\n" := by
  obtain ⟨b2, h1, h2, h3⟩ := runAdds_accounting_aux msgs { token_limit := L } [] rfl (by simp)
  have hbugs : (runAdds { token_limit := L } msgs).bugs = [] := runAdds_bugs msgs _
  refine ⟨b2, h1, by simpa using h2, h3, ?_⟩
  simp only [render_for_agent, hbugs, h1, List.map_nil, List.isEmpty_nil, if_pos]

/-- C2 counterexample: with budget 1, the single appended turn
`("user", "a\nb")` is compacted; its one rendered line carries the
flattened content `a b`, which is not a prefix of the original content
`a\nb`, and the original content occurs nowhere in the rendered
context. -/
theorem compaction_prefix_counterexample :
    (runAdds { token_limit := 1 } [("user", "a\nb")]).turns = []
    ∧ (runAdds { token_limit := 1 } [("user", "a\nb")]).summary
        = "Compressed history:\n" ++ compactLine ⟨"user", "a\nb"⟩
    ∧ compactLine ⟨"user", "a\nb"⟩ = "- user: a b"
    ∧ pyIsPrefix "a b" "a\nb" = false
    ∧ pyIn "a\nb" (render_for_agent (runAdds { token_limit := 1 } [("user", "a\nb")])) = false := by
  decide

/-- C3 (amended): whenever an append leaves the store over budget, the
compaction removes exactly the oldest `max(1, ⌊0.4 × turn_count⌋)` turns
(the code truncates `0.4 × n`; it does not take the ceiling), appends
their compacted rendering to the summary as one block, and this single
pass is all that `add_turn` does — the result equals one `compressOnce`
application even if it is still over budget. -/
theorem compaction_single_pass (st : ContextStore) (role content : String)
    (h : st.token_limit < total_tokens (appendTurn st role content)) :
    add_turn st role content = compressOnce (appendTurn st role content)
    ∧ (add_turn st role content).turns
        = (st.turns ++ [Turn.mk role content]).drop (cutCount (st.turns.length + 1))
    ∧ (add_turn st role content).summary
        = pyStrip (st.summary ++ "\n"
            ++ blockText ((st.turns ++ [Turn.mk role content]).take (cutCount (st.turns.length + 1)))) := by
  have hne : ¬ (total_tokens (appendTurn st role content)
      ≤ (appendTurn st role content).token_limit) := Nat.not_le.mpr h
  have hmc : add_turn st role content = compressOnce (appendTurn st role content) := by
    unfold add_turn maybeCompress
    rw [if_neg hne]
  refine ⟨hmc, ?_, ?_⟩ <;> rw [hmc] <;>
    simp [compressOnce, appendTurn, List.length_append]

/-- C3 witness: a concrete store that goes over budget on the third
turn; the pass removes exactly `max(1, ⌊0.4 × 3⌋) = 1` turn. -/
theorem compaction_single_pass_witness :
    add_turn { token_limit := 6, turns := [⟨"user", "abcd"⟩, ⟨"user", "abcd"⟩] } "user" "abcd"
      = compressOnce (appendTurn { token_limit := 6, turns := [⟨"user", "abcd"⟩, ⟨"user", "abcd"⟩] } "user" "abcd")
    ∧ (add_turn { token_limit := 6, turns := [⟨"user", "abcd"⟩, ⟨"user", "abcd"⟩] } "user" "abcd").turns
        = ([Turn.mk "user" "abcd", Turn.mk "user" "abcd"] ++ [Turn.mk "user" "abcd"]).drop (cutCount (2 + 1))
    ∧ (add_turn { token_limit := 6, turns := [⟨"user", "abcd"⟩, ⟨"user", "abcd"⟩] } "user" "abcd").summary
        = pyStrip ("" ++ "\n"
            ++ blockText (([Turn.mk "user" "abcd", Turn.mk "user" "abcd"] ++ [Turn.mk "user" "abcd"]).take (cutCount (2 + 1)))) :=
  compaction_single_pass
    { token_limit := 6, turns := [⟨"user", "abcd"⟩, ⟨"user", "abcd"⟩] } "user" "abcd" (by decide)

/-- C3 counterexample: three turns of four characters each under budget
6 trigger one compaction at the third append; the code removes 1 turn
(`max(1, ⌊1.2⌋)`), not the claimed `⌈0.4 × 3⌉ = 2`. -/
theorem compaction_cut_counterexample :
    (runAdds { token_limit := 6 } [("user", "abcd"), ("user", "abcd"), ("user", "abcd")]).turns
      = [⟨"user", "abcd"⟩, ⟨"user", "abcd"⟩]
    ∧ (runAdds { token_limit := 6 } [("user", "abcd"), ("user", "abcd"), ("user", "abcd")]).summary
      = "Compressed history:\n- user: abcd"
    ∧ 3 - (runAdds { token_limit := 6 } [("user", "abcd"), ("user", "abcd"), ("user", "abcd")]).turns.length
      ≠ max 1 ((2 * 3 + 4) / 5) := by
  decide
